import Mathlib

/-!
Verification of the fiskta fuzzer (src/fuzz.py) against its specification.

Shallow embedding conventions:
* Python randomness (the `random` module) is modelled as an abstract stream of
  natural numbers: each primitive call consumes one stream value and reduces
  it modulo the size of its range.  Every property proved below holds for an
  arbitrary stream, and counterexamples exhibit one concrete stream.
* Byte strings are `List Nat`; Python strings are Lean `String` (or `List Char`
  at the character level where Python does character work).
* Code that can raise (indexing, `random.randrange(0)`, `random.choice([])`,
  `int(...)`) lives in `Option`: `none` marks a raised exception.
* The child process run by `subprocess.run` is external; its outcome is the
  abstract `ProcOutcome` input of `run_fiskta`, and the whole executor is
  abstracted as a pure oracle `List String -> TestResult` where the Python
  code closes over a fixed input file, timeout and binary path.
-/

/-- Abstract random stream: an infinite sequence of naturals plus a cursor. -/
structure Rng where
  stream : Nat → Nat
  idx : Nat

/-- Consume one value from the random stream. -/
def draw (r : Rng) : Nat × Rng :=
  (r.stream r.idx, { r with idx := r.idx + 1 })

/-- Model of `random.randint(lo, hi)` (inclusive bounds); every call site in
fuzz.py has `lo ≤ hi`. -/
def randintT (lo hi : Nat) (r : Rng) : Nat × Rng :=
  let (v, r') := draw r
  (lo + v % (hi + 1 - lo), r')

/-- Model of `random.random() < p/100`: one draw decides the coin. -/
def bern (pct : Nat) (r : Rng) : Bool × Rng :=
  let (v, r') := draw r
  (v % 100 < pct, r')

/-- Model of `random.choice(l)` for the literal non-empty lists of fuzz.py;
`d` is never returned because those call sites have non-empty `l`. -/
def pick {α : Type} (l : List α) (d : α) (r : Rng) : α × Rng :=
  let (v, r') := draw r
  (l.getD (v % l.length) d, r')

/-- Model of `random.choice(l)` where `l` can be empty (raises there). -/
def choiceO {α : Type} (l : List α) (r : Rng) : Option (α × Rng) :=
  match l with
  | [] => none
  | a :: _ =>
    let (v, r') := draw r
    some (l.getD (v % l.length) a, r')

/-- Model of `random.randrange(n)`: raises when `n = 0`. -/
def randrangeO (n : Nat) (r : Rng) : Option (Nat × Rng) :=
  if n = 0 then none
  else
    let (v, r') := draw r
    some (v % n, r')

/-- Result of executing a single test case (class TestResult, fuzz.py:56). -/
structure TestResult where
  crashed : Bool
  timed_out : Bool
  exit_code : Int
  signal_num : Option Nat
deriving DecidableEq, Repr

/-- Outcome of the child process launched by `subprocess.run`: either it
completes with a return code (negative means killed by signal `n` with
returncode `-n`, the CPython convention), or the wall-clock timeout fires
(`subprocess.TimeoutExpired`). -/
inductive ProcOutcome where
  | completed (returncode : Int)
  | timedOut
deriving DecidableEq, Repr

/-- run_fiskta (fuzz.py:819-838): classify the child-process outcome. -/
def run_fiskta (outcome : ProcOutcome) : TestResult :=
  match outcome with
  | .completed rc =>
    if rc < 0 then
      { crashed := true, timed_out := false,
        exit_code := 128 + (rc.natAbs : Int), signal_num := some rc.natAbs }
    else
      { crashed := false, timed_out := false, exit_code := rc, signal_num := none }
  | .timedOut =>
    { crashed := false, timed_out := true, exit_code := -2, signal_num := none }

/-- same_failure (fuzz.py:842-848). -/
def same_failure (a b : TestResult) : Bool :=
  if a.timed_out && b.timed_out then true
  else if a.crashed && b.crashed then true
  else a.exit_code == b.exit_code

/-- Inner loop of minimize_tokens (fuzz.py:850-875).  `execF` is the executor
oracle (`run_fiskta` with the input path, timeout and binary fixed); the outer
`improved` loop of the Python code is folded into the restart `i := 0` after a
successful deletion: with a pure `execF`, the extra Python pass after the last
deletion deletes nothing and returns the same list. -/
def minimizeAux (execF : List String → TestResult) (want : TestResult) :
    List String → Nat → List String
  | best, i =>
    if best.length ≤ 1 then best
    else if h : i < best.length then
      let trial := best.take i ++ best.drop (i + 1)
      if same_failure want (execF trial) then
        minimizeAux execF want trial 0
      else
        minimizeAux execF want best (i + 1)
    else best
termination_by best i => (best.length, best.length - i)
decreasing_by
  · apply Prod.Lex.left
    simp [List.length_take, List.length_drop]
    omega
  · apply Prod.Lex.right
    omega

/-- minimize_tokens (fuzz.py:850-875): greedy token deletion. -/
def minimize_tokens (execF : List String → TestResult) (want : TestResult)
    (orig_tokens : List String) : List String :=
  minimizeAux execF want orig_tokens 0

/-- Case id computed by worker_fn (fuzz.py:927): `worker_id + case_iter * num_workers`. -/
def case_id (worker_id num_workers case_iter : Nat) : Nat :=
  worker_id + case_iter * num_workers

/-- The interesting-case handling of worker_fn (fuzz.py:964-968): minimize
unless minimization is off or the result carries the reserved parse-error
exit code 12. -/
def worker_final_ops (execF : List String → TestResult) (minimizeFlag : Bool)
    (res : TestResult) (ops : List String) : List String :=
  if minimizeFlag && res.exit_code != 12 then
    minimize_tokens execF res ops
  else ops

/-! ## Case store: ops-file round trip (save_case / repro_case) -/

/-- Characters removed by Python `str.strip()` with no argument. -/
def pySpace (c : Char) : Bool :=
  c = ' ' || c = '\t' || c = '\n' || c = '\r' || c = '\x0b' || c = '\x0c'

/-- Python `s.strip()` at character level: drop `pySpace` from both ends. -/
def pyStrip (s : List Char) : List Char :=
  ((s.dropWhile pySpace).reverse.dropWhile pySpace).reverse

/-- Python newline join of token texts, at character level. -/
def joinNl : List (List Char) → List Char
  | [] => []
  | [t] => t
  | t :: ts => t ++ '\n' :: joinNl ts

/-- Python split on the newline character (always non-empty result). -/
def splitNl : List Char → List (List Char)
  | [] => [[]]
  | c :: rest =>
    match splitNl rest with
    | [] => [[]]
    | g :: gs => if c = '\n' then [] :: g :: gs else (c :: g) :: gs

/-- Universal-newline translation done by `Path.read_text` (text mode):
`\r\n` and bare `\r` both become `\n`. -/
def pyUnivNl : List Char → List Char
  | [] => []
  | c :: rest =>
    if c = '\r' then
      match rest with
      | '\n' :: rest2 => '\n' :: pyUnivNl rest2
      | [] => ['\n']
      | c2 :: rest2 => '\n' :: pyUnivNl (c2 :: rest2)
    else c :: pyUnivNl rest

/-- save_case ops artifact (fuzz.py:885): the text written to case_N.ops.txt. -/
def save_ops (ops_tokens : List String) : List Char :=
  joinNl (ops_tokens.map String.data)

/-- repro_case ops read-back (fuzz.py:1203):
read the text back, strip it, split it on newlines. -/
def load_ops (file : List Char) : List String :=
  (splitNl (pyStrip (pyUnivNl file))).map List.asString

/-- save_case input artifact (fuzz.py:886): raw bytes, written verbatim. -/
def save_input (input_data : List Nat) : List Nat := input_data

/-- repro_case input read-back: the persisted bytes are used as the input
file directly (fuzz.py:1204,1207). -/
def load_input (file : List Nat) : List Nat := file

/-! ## Input data mutations (fuzz.py:685-768), in `Option` to track raising -/

/-- mutate_bit_flip (fuzz.py:685-693). -/
def mutate_bit_flip (data : List Nat) (r : Rng) : Option (List Nat × Rng) :=
  if data = [] then some (data, r)
  else do
    let (pos, r1) ← randrangeO data.length r
    let (bit_pos, r2) ← randrangeO 8 r1
    let b ← data.get? pos
    some (data.set pos (Nat.xor b (2 ^ bit_pos)), r2)

/-- mutate_byte_flip (fuzz.py:695-702). -/
def mutate_byte_flip (data : List Nat) (r : Rng) : Option (List Nat × Rng) :=
  if data = [] then some (data, r)
  else do
    let (pos, r1) ← randrangeO data.length r
    let (v, r2) ← randrangeO 256 r1
    some (data.set pos v, r2)

/-- mutate_byte_insert (fuzz.py:704-708). -/
def mutate_byte_insert (data : List Nat) (r : Rng) : Option (List Nat × Rng) := do
  let (pos, r1) := randintT 0 data.length r
  let (v, r2) ← randrangeO 256 r1
  some (data.take pos ++ v :: data.drop pos, r2)

/-- mutate_byte_delete (fuzz.py:710-715). -/
def mutate_byte_delete (data : List Nat) (r : Rng) : Option (List Nat × Rng) :=
  if data.length ≤ 1 then some (data, r)
  else do
    let (pos, r1) ← randrangeO data.length r
    some (data.take pos ++ data.drop (pos + 1), r1)

/-- One fresh random chunk of `n` bytes (`bytes(random.randrange(256) ...)`). -/
def randChunk : Nat → Rng → Option (List Nat × Rng)
  | 0, r => some ([], r)
  | n + 1, r => do
    let (v, r1) ← randrangeO 256 r
    let (rest, r2) ← randChunk n r1
    some (v :: rest, r2)

/-- mutate_chunk_insert (fuzz.py:717-722). -/
def mutate_chunk_insert (data : List Nat) (r : Rng) : Option (List Nat × Rng) := do
  let (chunk_size, r1) := randintT 1 17 r
  let (chunk, r2) ← randChunk chunk_size r1
  let (pos, r3) := randintT 0 data.length r2
  some (data.take pos ++ chunk ++ data.drop pos, r3)

/-- mutate_chunk_delete (fuzz.py:724-730). -/
def mutate_chunk_delete (data : List Nat) (r : Rng) : Option (List Nat × Rng) :=
  if data.length ≤ 1 then some (data, r)
  else do
    let (sz, r1) := randintT 1 33 r
    let chunk_size := min sz data.length
    let (pos, r2) := randintT 0 (data.length - chunk_size) r1
    some (data.take pos ++ data.drop (pos + chunk_size), r2)

/-- mutate_splice (fuzz.py:732-739); `corpus` is the module-level `_corpus`
list loaded once per worker. -/
def mutate_splice (corpus : List (List Nat)) (data : List Nat) (r : Rng) :
    Option (List Nat × Rng) :=
  if corpus.length < 2 then some (data, r)
  else do
    let (other, r1) ← choiceO corpus r
    let (split1, r2) := randintT 0 data.length r1
    let (split2, r3) := randintT 0 other.length r2
    some (data.take split1 ++ other.drop split2, r3)

/-- mutate_repeat (fuzz.py:741-750). -/
def mutate_repeat (data : List Nat) (r : Rng) : Option (List Nat × Rng) :=
  if data = [] then some (data, r)
  else do
    let (sz, r1) := randintT 1 17 r
    let chunk_size := min sz data.length
    let (pos, r2) := randintT 0 (data.length - chunk_size) r1
    let chunk := (data.drop pos).take chunk_size
    let (count, r3) := randintT 1 5 r2
    let (insert_pos, r4) := randintT 0 data.length r3
    some (data.take insert_pos ++ (List.replicate count chunk).flatten ++
          data.drop insert_pos, r4)

/-- One step of apply_mutations (fuzz.py:763-768): `random.choice(_mutations)`
dispatches over the fixed 8-entry mutator table (fuzz.py:752-761). -/
def pick_mutation (corpus : List (List Nat)) (data : List Nat) (r : Rng) :
    Option (List Nat × Rng) :=
  let (v, r0) := draw r
  match v % 8 with
  | 0 => mutate_bit_flip data r0
  | 1 => mutate_byte_flip data r0
  | 2 => mutate_byte_insert data r0
  | 3 => mutate_byte_delete data r0
  | 4 => mutate_chunk_insert data r0
  | 5 => mutate_chunk_delete data r0
  | 6 => mutate_splice corpus data r0
  | _ => mutate_repeat data r0

/-- apply_mutations (fuzz.py:763-768). -/
def apply_mutations (corpus : List (List Nat)) : List Nat → Nat → Rng →
    Option (List Nat × Rng)
  | data, 0, r => some (data, r)
  | data, count + 1, r => do
    let (data', r1) ← pick_mutation corpus data r
    apply_mutations corpus data' count r1

/-- Iterated corpus splice, for the Scenario-3 property: apply mutate_splice
`n` times in sequence. -/
def iter_splice (corpus : List (List Nat)) : Nat → List Nat → Rng →
    Option (List Nat × Rng)
  | 0, data, r => some (data, r)
  | n + 1, data, r => do
    let (data', r1) ← mutate_splice corpus data r
    iter_splice corpus n data' r1

/-! ## Random helpers of the generator (fuzz.py:211-247, 407-416) -/

/-- Model of `random.choice(pool)` over a string. -/
def pickChar (pool : List Char) (r : Rng) : Char × Rng :=
  let (v, r0) := draw r
  (pool.getD (v % pool.length) 'x', r0)

/-- Model of `random.choices(pool, k)`: `k` independent draws. -/
def choicesN (pool : List Char) : Nat → Rng → List Char × Rng
  | 0, r => ([], r)
  | k + 1, r =>
    let (c, r0) := pickChar pool r
    let (rest, r1) := choicesN pool k r0
    (c :: rest, r1)

/-- Model of `random.sample(pool, k)`: draws without replacement. -/
def sampleChars : List Char → Nat → Rng → List Char × Rng
  | _, 0, r => ([], r)
  | pool, k + 1, r =>
    let (v, r0) := draw r
    let i := v % pool.length
    let c := pool.getD i 'x'
    let (rest, r1) := sampleChars (pool.take i ++ pool.drop (i + 1)) k r0
    (c :: rest, r1)

/-- Python `s.strip(chars)`: drop characters of `cs` from both ends. -/
def stripSet (cs : List Char) (s : List Char) : List Char :=
  ((s.dropWhile (cs.contains ·)).reverse.dropWhile (cs.contains ·)).reverse

/-- Python `sep.join(parts)`. -/
def pyJoin (sep : String) : List String → String
  | [] => ""
  | [s] => s
  | s :: rest => s ++ sep ++ pyJoin sep rest

/-- rand_number (fuzz.py:211-214). -/
def rand_number (r : Rng) : String × Rng :=
  let (len, r0) := randintT 1 6 r
  let (cs, r1) := choicesN "0123456789".data len r0
  (List.asString cs, r1)

/-- rand_unit (fuzz.py:216-218). -/
def rand_unit (r : Rng) : String × Rng :=
  pick ["b", "l", "c"] "" r

/-- rand_signed_number (fuzz.py:220-223). -/
def rand_signed_number (r : Rng) : String × Rng :=
  let (sign, r0) := pick ["", "-"] "" r
  let (n, r1) := rand_number r0
  (sign ++ n, r1)

/-- rand_offset (fuzz.py:225-228). -/
def rand_offset (r : Rng) : String × Rng :=
  let (sign, r0) := pick ["+", "-"] "" r
  let (n, r1) := rand_number r0
  let (u, r2) := rand_unit r1
  (sign ++ n ++ u, r2)

/-- rand_upper_letter (fuzz.py:230-232). -/
def rand_upper_letter (r : Rng) : Char × Rng :=
  pickChar "ABCDEFGHIJKLMNOPQRSTUVWXYZ".data r

/-- rand_name (fuzz.py:234-239). -/
def rand_name (r : Rng) : String × Rng :=
  let (len, r0) := randintT 1 10 r
  let (c0, r1) := rand_upper_letter r0
  let (rest, r2) := choicesN "ABCDEFGHIJKLMNOPQRSTUVWXYZ0123456789_-".data (len - 1) r1
  (List.asString (c0 :: rest), r2)

/-- Character pool of rand_string_token (fuzz.py:244). -/
def stringTokenPool : List Char :=
  "abcdefghijklmnopqrstuvwxyzABCDEFGHIJKLMNOPQRSTUVWXYZ0123456789 \t.:;,_-+/\\[]\x7b\x7d()|?*^$@!~\n\r".data

/-- rand_string_token (fuzz.py:241-247). -/
def rand_string_token (r : Rng) : String × Rng :=
  let (len, r0) := randintT 1 26 r
  let (cs, r1) := choicesN stringTokenPool len r0
  let s := stripSet " \n\r\t".data cs
  (if s = [] then "x" else List.asString s, r1)

/-- Hex-pair loop of rand_hex_string (fuzz.py:407-416); `first` tells whether
`i = 0` (no space coin is flipped there). -/
def hexPairs : Nat → Bool → Rng → List Char × Rng
  | 0, _, r => ([], r)
  | k + 1, first, r =>
    let (sp, r0) :=
      if first then (([] : List Char), r)
      else
        let (c, r') := bern 50 r
        (if c then [' '] else [], r')
    let (h1, r1) := pickChar "0123456789ABCDEF".data r0
    let (h2, r2) := pickChar "0123456789ABCDEF".data r1
    let (rest, r3) := hexPairs k false r2
    (sp ++ h1 :: h2 :: rest, r3)

/-- rand_hex_string (fuzz.py:407-416). -/
def rand_hex_string (r : Rng) : String × Rng :=
  let (pairs, r0) := randintT 1 13 r
  let (cs, r1) := hexPairs pairs true r0
  (List.asString cs, r1)

/-! ## Regex generator (gen_random_regex, fuzz.py:249-405) -/

/-- atom() of gen_random_regex (fuzz.py:253-297). -/
def regex_atom (r : Rng) : String × Rng :=
  let (c, r0) := randintT 1 20 r
  if c = 1 then pick ["a", "b", "x", "1", "0", " ", "\n"] "" r0
  else if c = 2 then (".", r0)
  else if c = 3 then ("\\d", r0)
  else if c = 4 then ("\\D", r0)
  else if c = 5 then ("\\w", r0)
  else if c = 6 then ("\\W", r0)
  else if c = 7 then ("\\s", r0)
  else if c = 8 then ("\\S", r0)
  else if c = 9 then pick ["\\n", "\\t", "\\r", "\\f", "\\v", "\\0"] "" r0
  else if c = 10 then
    pick ["\\.", "\\*", "\\+", "\\?", "\\[", "\\]", "\\(", "\\)",
          "\\\x7b", "\\\x7d", "\\|", "\\^", "\\$"] "" r0
  else if c ≤ 14 then
    let (ct, r1) := randintT 1 4 r0
    if ct = 1 then
      let (s, r2) := pick ["a-z", "0-9", "A-Z", "a-zA-Z"] "" r1
      ("[" ++ s ++ "]", r2)
    else if ct = 2 then
      let (s, r2) := pick ["0-9", "a-z", " \t"] "" r1
      ("[^" ++ s ++ "]", r2)
    else if ct = 3 then
      let (k, r2) := randintT 2 5 r1
      let (cs, r3) := sampleChars "abcxyz0123".data k r2
      ("[" ++ List.asString cs ++ "]", r3)
    else ("[\\d\\w]", r1)
  else if c ≤ 16 then pick ["^", "$"] "" r0
  else pick ["", "a", "x"] "" r0

/-- quantifier() of gen_random_regex (fuzz.py:299-318). -/
def regex_quantifier (r : Rng) : String × Rng :=
  let (q, r0) := randintT 1 11 r
  if q ≤ 3 then pick ["*", "+", "?"] "" r0
  else if q ≤ 5 then
    let (n, r1) := pick [0, 1, 2, 3, 5, 10, 20, 50, 99] 0 r0
    ("\x7b" ++ Nat.repr n ++ "\x7d", r1)
  else if q ≤ 7 then
    let (min_val, r1) := randintT 0 20 r0
    let (d, r2) := randintT 1 30 r1
    ("\x7b" ++ Nat.repr min_val ++ "," ++ Nat.repr (min_val + d) ++ "\x7d", r2)
  else if q ≤ 9 then
    pick ["\x7b0,100\x7d", "\x7b99,100\x7d", "\x7b50,100\x7d",
          "\x7b0,1\x7d", "\x7b1,2\x7d", "\x7b100\x7d"] "" r0
  else
    pick ["\x7b0,999999\x7d", "\x7b999,\x7d", "\x7b40,80\x7d", "\x7b70,99\x7d"] "" r0

/-- term(depth) of gen_random_regex (fuzz.py:320-336); recursion is bounded
because the self-call is guarded by `depth < 2`. -/
def regex_term (depth : Nat) (r : Rng) : String × Rng :=
  if 3 < depth then
    let (a, r0) := regex_atom r
    let (c, r1) := bern 30 r0
    if c then
      let (q, r2) := regex_quantifier r1
      (a ++ q, r2)
    else (a, r1)
  else
    let (t, r0) := randintT 1 10 r
    if t ≤ 6 then
      let (a, r1) := regex_atom r0
      let (c, r2) := bern 50 r1
      if c then
        let (q, r3) := regex_quantifier r2
        (a ++ q, r3)
      else (a, r2)
    else if hd : t ≤ 8 ∧ depth < 2 then
      let (inner, r1) := regex_term (depth + 1) r0
      let (c, r2) := bern 70 r1
      if c then
        let (q, r3) := regex_quantifier r2
        ("(" ++ inner ++ ")" ++ q, r3)
      else ("(" ++ inner ++ ")", r2)
    else
      let (a, r1) := regex_atom r0
      let (q, r2) := regex_quantifier r1
      let (c, r3) := bern 50 r2
      if c then
        let (q2, r4) := regex_quantifier r3
        ("(" ++ a ++ q ++ ")" ++ q2, r4)
      else ("(" ++ a ++ q ++ ")", r3)
termination_by 2 - depth
decreasing_by exact Nat.sub_lt_sub_left hd.2 (Nat.lt_succ_self depth)

/-- The list comprehension `[term(depth) for _ in range(n)]`. -/
def regex_termList (depth : Nat) : Nat → Rng → List String × Rng
  | 0, r => ([], r)
  | k + 1, r =>
    let (t, r0) := regex_term depth r
    let (rest, r1) := regex_termList depth k r0
    (t :: rest, r1)

/-- alternation(depth) of gen_random_regex (fuzz.py:338-351); the
`num_alts > 256` re-roll is kept although `num_alts ≤ 200` makes it dead. -/
def regex_alternation (depth : Nat) (r : Rng) : String × Rng :=
  let (cap, r0) := pick [3, 5, 10, 50, 200] 0 r
  let (na, r1) := randintT 2 cap r0
  let (num_alts, r2) := if 256 < na then randintT 200 256 r1 else (na, r1)
  let (parts, r3) := regex_termList depth num_alts r2
  let result := pyJoin "|" parts
  let (c, r4) := bern 30 r3
  if c then
    let (q, r5) := regex_quantifier r4
    ("(" ++ result ++ ")" ++ q, r5)
  else (result, r4)

/-- The comprehension `[atom() for _ in range(n)]`. -/
def regex_atomList : Nat → Rng → List String × Rng
  | 0, r => ([], r)
  | k + 1, r =>
    let (a, r0) := regex_atom r
    let (rest, r1) := regex_atomList k r0
    (a :: rest, r1)

/-- Loop body of the complex tier (fuzz.py:365-373). -/
def regex_complexParts : Nat → Rng → List String × Rng
  | 0, r => ([], r)
  | k + 1, r =>
    let (c, r0) := bern 30 r
    let (p, r1) := if c then regex_alternation 1 r0 else regex_term 1 r0
    let (rest, r2) := regex_complexParts k r1
    (p :: rest, r2)

/-- Nested-quantifier loop of the pathological tier (fuzz.py:387-391). -/
def regex_nestQuant : Nat → String → Rng → String × Rng
  | 0, base, r => (base, r)
  | k + 1, base, r =>
    let (q, r0) := regex_quantifier r
    regex_nestQuant k ("(" ++ base ++ q ++ ")") r0

/-- Pathological tier of gen_random_regex (fuzz.py:383-405). -/
def regex_pathological (r : Rng) : String × Rng :=
  let (pt, r0) := randintT 1 10 r
  if pt ≤ 2 then
    let (base, r1) := regex_atom r0
    let (k, r2) := randintT 2 4 r1
    regex_nestQuant k base r2
  else if pt ≤ 4 then
    let (num, r1) := randintT 200 256 r0
    let (atoms, r2) := regex_atomList num r1
    (pyJoin "|" atoms, r2)
  else if pt ≤ 6 then
    pick ["()*", "(|a)*", "(a|)*", "()*?", "()+", "()"] "" r0
  else if pt ≤ 8 then
    let (a, r1) := regex_atom r0
    let (s, r2) := pick ["\x7b0,999999\x7d", "\x7b999,\x7d", "\x7b100,\x7d"] "" r1
    (a ++ s, r2)
  else
    let (k, r1) := randintT 5 20 r0
    let (atoms, r2) := regex_atomList k r1
    let (q, r3) := regex_quantifier r2
    ("(" ++ pyJoin "|" atoms ++ ")" ++ q, r3)

/-- gen_random_regex (fuzz.py:249-405). -/
def gen_random_regex (r : Rng) : String × Rng :=
  let (cx, r0) := pick ["simple", "medium", "complex", "pathological"] "" r
  if cx = "simple" then regex_term 0 r0
  else if cx = "medium" then
    let (c, r1) := bern 50 r0
    if c then
      let (k, r2) := randintT 1 3 r1
      let (parts, r3) := regex_termList 0 k r2
      (String.join parts, r3)
    else regex_alternation 0 r1
  else if cx = "complex" then
    let (k, r1) := randintT 2 4 r0
    let (parts, r2) := regex_complexParts k r1
    let s0 := String.join parts
    let (c1, r3) := bern 20 r2
    let s1 := if c1 then "^" ++ s0 else s0
    let (c2, r4) := bern 20 r3
    (if c2 then s1 ++ "$" else s1, r4)
  else regex_pathological r0

/-! ## Operation and program generator (fuzz.py:420-478) -/

/-- gen_location (fuzz.py:443-448). -/
def gen_location (r : Rng) : String × Rng :=
  let (c, r0) := bern 25 r
  if c then rand_name r0
  else
    pick ["cursor", "BOF", "EOF", "match-start", "match-end",
          "line-start", "line-end"] "" r0

/-- gen_location_expr (fuzz.py:450-455). -/
def gen_location_expr (r : Rng) : String × Rng :=
  let (loc, r0) := gen_location r
  let (c, r1) := bern 30 r0
  if c then
    let (off, r2) := rand_offset r1
    (loc ++ off, r2)
  else (loc, r1)

/-- gen_random_op (fuzz.py:420-441): `random.choice` over the 10-entry op
table, then the argument synthesizer of the chosen entry (the nested Python
conditional of the `take` entry evaluates its coins left to right). -/
def gen_random_op (r : Rng) : List String × Rng :=
  let (v, r0) := draw r
  match v % 10 with
  | 0 =>
    let (s, r1) := rand_string_token r0
    (["find", s], r1)
  | 1 =>
    let (s, r1) := gen_random_regex r0
    (["find:re", s], r1)
  | 2 =>
    let (s, r1) := rand_hex_string r0
    (["find:bin", s], r1)
  | 3 =>
    let (n, r1) := rand_number r0
    let (u, r2) := rand_unit r1
    (["skip", n ++ u], r2)
  | 4 =>
    let (c1, r1) := bern 50 r0
    if c1 then
      let (sn, r2) := rand_signed_number r1
      let (u, r3) := rand_unit r2
      (["take", sn ++ u], r3)
    else
      let (c2, r2) := bern 40 r1
      if c2 then
        let (re, r3) := gen_random_regex r2
        (["take", "until:re", re], r3)
      else
        let (c3, r3) := bern 50 r2
        if c3 then
          let (s, r4) := rand_string_token r3
          (["take", "until", s], r4)
        else
          let (c4, r4) := bern 50 r3
          if c4 then
            let (h, r5) := rand_hex_string r4
            (["take", "until:bin", h], r5)
          else
            let (l, r5) := gen_location_expr r4
            (["take", "to", l], r5)
  | 5 =>
    let (n, r1) := rand_name r0
    (["label", n], r1)
  | 6 =>
    let (l1, r1) := gen_location_expr r0
    let (l2, r2) := gen_location_expr r1
    (["view", l1, l2], r2)
  | 7 => (["clear", "view"], r0)
  | 8 =>
    let (s, r1) := rand_string_token r0
    (["print", s], r1)
  | _ =>
    let (s, r1) := rand_string_token r0
    (["fail", s], r1)

/-- Clause-link insertion between operations (fuzz.py:466-476): with
probability 25% append one of THEN (60%), OR (30%), AND (10%), else nothing. -/
def sep_draw (r : Rng) : List String × Rng :=
  let (c, r0) := bern 25 r
  if c then
    let (roll, r1) := randintT 1 10 r0
    (if roll ≤ 6 then ["THEN"] else if roll ≤ 9 then ["OR"] else ["AND"], r1)
  else ([], r0)

/-- The generation loop of gen_random_program (fuzz.py:462-476): `n` ops, a
clause-link coin after every op except the last. -/
def gen_ops_flat : Nat → Rng → List String × Rng
  | 0, r => ([], r)
  | 1, r => gen_random_op r
  | n + 2, r =>
    let (op, r0) := gen_random_op r
    let (sep, r1) := sep_draw r0
    let (rest, r2) := gen_ops_flat (n + 1) r1
    (op ++ sep ++ rest, r2)

/-- gen_random_program (fuzz.py:457-478). -/
def gen_random_program (min_ops max_ops : Nat) (r : Rng) : List String × Rng :=
  let (num_ops, r0) := randintT min_ops max_ops r
  gen_ops_flat num_ops r0

/-! ## Program mutations (mutate_program, fuzz.py:482-594) -/

/-- Python lstrip dropping every leading minus sign. -/
def lstripDashes (l : List Char) : List Char := l.dropWhile (· = '-')

/-- Python `s.isdigit()` for ASCII content: non-empty and all digits. -/
def pyIsDigitL (l : List Char) : Bool := !l.isEmpty && l.all Char.isDigit

/-- Python `s.startswith(p)` at character level. -/
def pyStartsL (p s : List Char) : Bool := s.take p.length == p

/-- The size-token test of mutation types 1 and 9 (fuzz.py:494,550):
the token is non-empty, its last character is one of b, l, c, and the
rest with leading minus signs removed is all digits. -/
def sizeTok (t : String) : Bool :=
  match t.data.getLast? with
  | none => false
  | some c => (c == 'b' || c == 'l' || c == 'c') &&
              pyIsDigitL (lstripDashes t.data.dropLast)

/-- The location-token test of mutation type 2 (fuzz.py:507). -/
def locCond (t : String) : Bool :=
  (t == "BOF" || t == "EOF" || t == "cursor") ||
  pyStartsL "match-".data t.data || pyStartsL "line-".data t.data

/-- The bare-integer test of mutation type 11 (fuzz.py:572):
the token with leading minus signs removed is all digits. -/
def bareIntCond (t : String) : Bool := pyIsDigitL (lstripDashes t.data)

/-- The sign flip of mutation type 9 (fuzz.py:552-557). -/
def flipSize (t : String) : String :=
  let num := t.data.dropLast
  let unit := t.data.getLastD 'b'
  if pyStartsL ['-'] num then List.asString (num.drop 1 ++ [unit])
  else List.asString ('-' :: (num ++ [unit]))

/-- Numeric value of a digit string. -/
def digitsVal (l : List Char) : Nat :=
  l.foldl (fun a c => 10 * a + (c.toNat - '0'.toNat)) 0

/-- Python `int(token)` under the precondition that
its leading minus signs removed leave only digits held: raises (`none`) when the token has two or
more leading minus signs. -/
def pyToInt (s : String) : Option Int :=
  match s.data with
  | [] => none
  | '-' :: rest => if pyIsDigitL rest then some (-(digitsVal rest : Int)) else none
  | l => if pyIsDigitL l then some ((digitsVal l : Int)) else none

/-- Forward token scan shared by mutation types 1, 2, 9 and 11
(`for i, token in enumerate(mutated): if cond: if random() < 0.5: replace and
break`). -/
def scanReplaceO (cond : String → Bool)
    (repl : String → Rng → Option (String × Rng)) :
    List String → Rng → Option (List String × Rng)
  | [], r => some ([], r)
  | t :: rest, r =>
    if cond t then
      let (c, r0) := bern 50 r
      if c then do
        let (t2, r1) ← repl t r0
        some (t2 :: rest, r1)
      else do
        let (rest2, r1) ← scanReplaceO cond repl rest r0
        some (t :: rest2, r1)
    else do
      let (rest2, r1) ← scanReplaceO cond repl rest r
      some (t :: rest2, r1)

/-- Pair scan shared by mutation types 3 and 10 (`for i in range(1, len):
if mutated[i-1] in keys: if random() < 0.5: replace mutated[i] and break`). -/
def scanPairReplaceO (prevKeys : List String)
    (repl : Rng → Option (String × Rng)) :
    List String → Rng → Option (List String × Rng)
  | [], r => some ([], r)
  | [t], r => some ([t], r)
  | a :: b :: rest, r =>
    if prevKeys.contains a then
      let (c, r0) := bern 50 r
      if c then do
        let (b2, r1) ← repl r0
        some (a :: b2 :: rest, r1)
      else do
        let (res, r1) ← scanPairReplaceO prevKeys repl (b :: rest) r0
        some (a :: res, r1)
    else do
      let (res, r1) ← scanPairReplaceO prevKeys repl (b :: rest) r
      some (a :: res, r1)

/-- Reverse scan of mutation type 12 (fuzz.py:578-584): walk indices from the
end, coin-flip at each clause link, pop the first winner.  The Bool records
that the `break` fired. -/
def dropLinkRev : List String → Rng → List String × Rng × Bool
  | [], r => ([], r, false)
  | t :: rest, r =>
    match dropLinkRev rest r with
    | (rest2, r1, true) => (t :: rest2, r1, true)
    | (rest2, r1, false) =>
      if t == "THEN" || t == "OR" || t == "AND" then
        let (c, r2) := bern 50 r1
        if c then (rest2, r2, true) else (t :: rest2, r2, false)
      else (t :: rest2, r1, false)

/-- extreme_sizes (fuzz.py:492). -/
def extreme_sizes : List String :=
  ["0b", "0c", "0l", "999999999b", "999999999c", "999999999l",
   "-1b", "-1c", "-1l"]

/-- extreme_offsets (fuzz.py:501-505). -/
def extreme_offsets : List String :=
  ["BOF+999999999b", "EOF-999999999b", "BOF+999999999c", "EOF-999999999c",
   "BOF+999999999l", "EOF-999999999l", "cursor+999999999b",
   "cursor-999999999b", "match-start+999999999b", "match-end-999999999b"]

/-- Keyword pool of mutation type 7 (fuzz.py:536-537). -/
def mutKeywords : List String :=
  ["find", "find:re", "find:bin", "skip", "take", "label", "view", "clear",
   "print", "fail", "to", "until", "until:re", "until:bin", "at",
   "THEN", "OR", "AND"]

/-- Garbage pool of mutation type 8 (fuzz.py:543-544). -/
def garbageTokens : List String :=
  ["", " ", "  ", "\t", "\n", "999999999999999999999",
   "-999999999999999999999", "0x", ":::", "...", "---", "+++", "////",
   "[[[[", "]]]]", "\x7b\x7b\x7b\x7b", "\x7d\x7d\x7d\x7d", "____", "INVALID"]

/-- invalid_hex pool of mutation type 10 (fuzz.py:562). -/
def invalidHex : List String :=
  ["G", "ZZ", "0G", "1H", "XY", "  ", "0", "000", "FFFFF"]

/-- One branch of the `elif` chain of mutate_program (fuzz.py:487-592): the
drawn `mutation_type` dispatches, and a branch whose length guard fails
leaves the list untouched. -/
def apply_mutation (mutation_type : Nat) (ops : List String) (r : Rng) :
    Option (List String × Rng) :=
  match mutation_type with
  | 1 =>
    if ops = [] then some (ops, r)
    else scanReplaceO sizeTok
      (fun _ rr => let (s, rr1) := pick extreme_sizes "" rr; some (s, rr1)) ops r
  | 2 =>
    if ops = [] then some (ops, r)
    else scanReplaceO locCond
      (fun _ rr => let (s, rr1) := pick extreme_offsets "" rr; some (s, rr1)) ops r
  | 3 =>
    if 2 < ops.length then
      scanPairReplaceO ["find:re"] (fun rr => some (gen_random_regex rr)) ops r
    else some (ops, r)
  | 4 =>
    if 1 < ops.length then do
      let (pos, r0) ← randrangeO ops.length r
      some (ops.take pos ++ ops.drop (pos + 1), r0)
    else some (ops, r)
  | 5 =>
    if 1 < ops.length then do
      let (pos, r0) ← randrangeO ops.length r
      let t ← ops.get? pos
      some (ops.take pos ++ t :: ops.drop pos, r0)
    else some (ops, r)
  | 6 =>
    if 2 < ops.length then do
      let (pos, r0) ← randrangeO (ops.length - 1) r
      let a ← ops.get? pos
      let b ← ops.get? (pos + 1)
      some ((ops.set pos b).set (pos + 1) a, r0)
    else some (ops, r)
  | 7 =>
    if ops = [] then some (ops, r)
    else
      let (pos, r0) := randintT 0 ops.length r
      let (kw, r1) := pick mutKeywords "" r0
      some (ops.take pos ++ kw :: ops.drop pos, r1)
  | 8 =>
    if ops = [] then some (ops, r)
    else do
      let (g, r0) := pick garbageTokens "" r
      let (pos, r1) ← randrangeO ops.length r0
      some (ops.set pos g, r1)
  | 9 =>
    if ops = [] then some (ops, r)
    else scanReplaceO sizeTok (fun t rr => some (flipSize t, rr)) ops r
  | 10 =>
    if 1 < ops.length then
      scanPairReplaceO ["find:bin", "until:bin"]
        (fun rr => let (s, rr1) := pick invalidHex "" rr; some (s, rr1)) ops r
    else some (ops, r)
  | 11 =>
    if ops = [] then some (ops, r)
    else scanReplaceO bareIntCond (fun t rr => do
      let n ← pyToInt t
      let (d, rr1) := pick [(-1 : Int), 1] 1 rr
      some (Int.repr (n + d), rr1)) ops r
  | 12 =>
    if ops = [] then some (ops, r)
    else
      let (res, r1, _) := dropLinkRev ops r
      some (res, r1)
  | 13 =>
    if 2 < ops.length then do
      let (start, r0) ← randrangeO (ops.length - 1) r
      let (cnt, r1) := randintT 2 3 r0
      let count := min cnt (ops.length - start)
      let seq := (ops.drop start).take count
      let (insert_pos, r2) := randintT 0 ops.length r1
      some (ops.take insert_pos ++ seq ++ ops.drop insert_pos, r2)
    else some (ops, r)
  | _ => some (ops, r)

/-- The `for _ in range(num_mutations)` loop of mutate_program
(fuzz.py:487-488): each round draws a mutation type in 1..13 and applies it. -/
def mutate_loop : Nat → List String → Rng → Option (List String × Rng)
  | 0, ops, r => some (ops, r)
  | k + 1, ops, r => do
    let (t, r0) := randintT 1 13 r
    let (ops2, r1) ← apply_mutation t ops r0
    mutate_loop k ops2 r1

/-- mutate_program (fuzz.py:482-594): apply 0-2 mutations. -/
def mutate_program (ops : List String) (r : Rng) : Option (List String × Rng) :=
  let (num_mutations, r0) := randintT 0 2 r
  mutate_loop num_mutations ops r0

/-- The minimum list length each mutation type needs before its guard lets it
change anything (fuzz.py:490,499,512,520,524,529,534,541,547,560,569,578,586). -/
def mutationMinLen (mutation_type : Nat) : Nat :=
  match mutation_type with
  | 3 => 3
  | 6 => 3
  | 13 => 3
  | 4 => 2
  | 5 => 2
  | 10 => 2
  | _ => 1

/-! ## Targeted-mismatch mutation (mutate_for_input_mismatch, fuzz.py:597-657) -/

/-- First-match pair scan of the mismatch branches (fuzz.py:606-612, 615-629,
631-638, 650-655): walk pairs left to right and, at the first position whose
left neighbour is in `prevKeys`, replace the right token and possibly the
input via `fire`, then stop.  There is no coin here, unlike mutate_program. -/
def scanPairFire (prevKeys : List String)
    (fire : List Nat → Rng → String × List Nat × Rng) :
    List String → List Nat → Rng → List String × List Nat × Rng
  | [], input, r => ([], input, r)
  | [t], input, r => ([t], input, r)
  | a :: b :: rest, input, r =>
    if prevKeys.contains a then
      let (b2, input2, r2) := fire input r
      (a :: b2 :: rest, input2, r2)
    else
      let (res, input2, r2) := scanPairFire prevKeys fire (b :: rest) input r
      (a :: res, input2, r2)

/-- mutate_for_input_mismatch (fuzz.py:597-657): 5 targeted variants keyed by
one randint(1, 5) draw.  Note the scans test raw token equality against the
keyword lists, with no notion of token position, so a string argument that
happens to equal a scanned keyword makes the scan fire one position late. -/
def mutate_for_input_mismatch (ops : List String) (input_data : List Nat)
    (r : Rng) : List String × List Nat × Rng :=
  let (mismatch_type, r0) := randintT 1 5 r
  if mismatch_type = 1 then
    scanPairFire ["find", "find:re", "until", "until:re"]
      (fun _ rr =>
        let (n, rr1) := randintT 5000 50000 rr
        let (m, rr2) := randintT 1 100 rr1
        (List.asString (List.replicate n 'A'), List.replicate m 120, rr2))
      ops input_data r0
  else if mismatch_type = 2 then
    scanPairFire ["find:re"]
      (fun _ rr =>
        let (p, rr1) := pick [".\x7b50,100\x7d", "a\x7b40,80\x7d",
          "(..)\x7b30,50\x7d", "\\w\x7b70,99\x7d", "(.|\n)\x7b80,100\x7d"] "" rr
        let (m, rr2) := randintT 1 30 rr1
        (p, List.replicate m 97, rr2))
      ops input_data r0
  else if mismatch_type = 3 then
    scanPairFire ["find:re"]
      (fun inp rr =>
        let (num_alts, rr1) := randintT 200 256 rr
        (pyJoin "|" (List.replicate num_alts "a"), inp, rr1))
      ops input_data r0
  else if mismatch_type = 4 then
    let (n, r1) := randintT 1000 9999 r0
    let fake_label := "label_" ++ Nat.repr n
    ("view" :: fake_label :: fake_label :: ops, input_data, r1)
  else
    scanPairFire ["find", "find:re", "find:bin", "skip", "take", "print", "fail"]
      (fun inp rr =>
        let (kw, rr1) := pick ["THEN", "OR", "AND"] "" rr
        (kw, inp, rr1))
      ops input_data r0

/-! ## Operation-group counting and concrete streams -/

/-- The ten operation keywords of the generator vocabulary (fuzz.py:422-437).
Each operation group produced by gen_random_op starts with exactly one of
these, so the number of such tokens in a program is an upper bound on its
operation-group count (argument tokens can only add spurious hits, e.g. the
`view` argument of `clear`). -/
def opKeywords : List String :=
  ["find", "find:re", "find:bin", "skip", "take", "label", "view", "clear",
   "print", "fail"]

/-- Upper bound on the operation-group count of a token list: the number of
operation-keyword tokens it contains. -/
def opCount (tokens : List String) : Nat :=
  (tokens.filter (fun t => opKeywords.contains t)).length

/-- A stream that replays a fixed list of values (0 afterwards). -/
def rngOf (l : List Nat) : Rng := { stream := fun n => l.getD n 0, idx := 0 }

/-- Stream driving gen_random_program 3 3 to emit
`skip 5b skip 5b skip 5b` (three skip operations, no clause links). -/
def rngA : Rng := rngOf [0, 3, 0, 5, 0, 99, 3, 0, 5, 0, 99, 3, 0, 5, 0]

/-- Stream driving mutate_program to one mutation of type 4 deleting
token 0. -/
def rngB : Rng := rngOf [1, 3, 0]

/-- Stream driving gen_random_program 2 2 to emit
`print until skip 5b`: the string argument of print is the five-letter token
until, drawn character by character from the rand_string_token pool. -/
def rngD : Rng := rngOf [0, 8, 4, 20, 13, 19, 8, 11, 99, 3, 0, 5, 0]

/-- Stream driving mutate_for_input_mismatch to variant 1 with the shortest
pattern (5000 characters) and shortest input (1 byte). -/
def rngE : Rng := rngOf [0, 0, 0]

/-- The Scenario-3 corpus: one 100-byte file and one 200-byte file. -/
def corpusC : List (List Nat) :=
  [List.replicate 100 0, List.replicate 200 1]

/-- Stream driving 50 splices: always pick the 200-byte entry, cut the
current data at min(300, len) and the other at 0, so lengths go
100 → 300 → 500 → 500 → ... -/
def rngC : Rng :=
  { stream := fun n =>
      if n % 3 = 0 then 1
      else if n % 3 = 1 then (if n < 3 then 100 else 300)
      else 0,
    idx := 0 }

/-- An all-zero stream, used to instantiate witnesses. -/
def rng0 : Rng := rngOf []

/-! ## Helper lemmas about the minimizer loop -/

theorem minimizeAux_sublist (execF : List String → TestResult)
    (want : TestResult) (best : List String) (i : Nat) :
    (minimizeAux execF want best i).Sublist best := by
  induction best, i using minimizeAux.induct execF want with
  | case1 best i h =>
    rw [minimizeAux]
    simp [h]
  | case2 best i h1 h2 trial hs ih =>
    rw [minimizeAux]
    simp only [if_neg h1, dif_pos h2, if_pos hs]
    refine ih.trans ?_
    show (List.take i best ++ List.drop (i + 1) best).Sublist best
    rw [← List.eraseIdx_eq_take_drop_succ]
    exact List.eraseIdx_sublist best i
  | case3 best i h1 h2 trial hs ih =>
    rw [minimizeAux]
    simp only [if_neg h1, dif_pos h2, if_neg hs]
    exact ih
  | case4 best i h1 h2 =>
    rw [minimizeAux]
    simp [h1, h2]

theorem minimizeAux_ne_nil (execF : List String → TestResult)
    (want : TestResult) (best : List String) (i : Nat) (hb : best ≠ []) :
    minimizeAux execF want best i ≠ [] := by
  induction best, i using minimizeAux.induct execF want with
  | case1 best i h =>
    rw [minimizeAux]
    simpa [h] using hb
  | case2 best i h1 h2 trial hs ih =>
    rw [minimizeAux]
    simp only [if_neg h1, dif_pos h2, if_pos hs]
    apply ih
    have : trial.length = best.length - 1 := by
      show (List.take i best ++ List.drop (i + 1) best).length = best.length - 1
      simp only [List.length_append, List.length_take, List.length_drop]
      omega
    have hlen : 0 < trial.length := by omega
    exact List.length_pos.mp hlen
  | case3 best i h1 h2 trial hs ih =>
    rw [minimizeAux]
    simp only [if_neg h1, dif_pos h2, if_neg hs]
    exact ih hb
  | case4 best i h1 h2 =>
    rw [minimizeAux]
    simpa [h1, h2] using hb

theorem minimizeAux_pres (execF : List String → TestResult)
    (want : TestResult) (best : List String) (i : Nat)
    (hb : same_failure want (execF best) = true) :
    same_failure want (execF (minimizeAux execF want best i)) = true := by
  induction best, i using minimizeAux.induct execF want with
  | case1 best i h =>
    rw [minimizeAux]
    simpa [h] using hb
  | case2 best i h1 h2 trial hs ih =>
    rw [minimizeAux]
    simp only [if_neg h1, dif_pos h2, if_pos hs]
    exact ih hs
  | case3 best i h1 h2 trial hs ih =>
    rw [minimizeAux]
    simp only [if_neg h1, dif_pos h2, if_neg hs]
    exact ih hb
  | case4 best i h1 h2 =>
    rw [minimizeAux]
    simpa [h1, h2] using hb

/-! ## Claim theorems -/

/-- C1: run_fiskta classifies every execution: termination by signal `n`
(returncode `-n`) gives `crashed = true`, `signal = n`, `exit_code = 128 + n`;
a normal return keeps the process exit code with `crashed = false` and
`timed_out = false`; a timeout gives `timed_out = true` with the sentinel
exit code `-2`. -/
theorem claim_C1_run_fiskta_classification :
    (∀ n : Nat, 0 < n →
      run_fiskta (.completed (-(n : Int))) =
        { crashed := true, timed_out := false, exit_code := 128 + (n : Int),
          signal_num := some n }) ∧
    (∀ rc : Int, 0 ≤ rc →
      run_fiskta (.completed rc) =
        { crashed := false, timed_out := false, exit_code := rc,
          signal_num := none }) ∧
    run_fiskta .timedOut =
      { crashed := false, timed_out := true, exit_code := -2,
        signal_num := none } := by
  refine ⟨?_, ?_, rfl⟩
  · intro n hn
    have hneg : (-(n : Int)) < 0 := by
      have : (0 : Int) < (n : Int) := by exact_mod_cast hn
      omega
    simp [run_fiskta, hneg]
  · intro rc hrc
    have : ¬ rc < 0 := by omega
    simp [run_fiskta, this]

/-- Witness for C1 at signal 11, exit code 0 and timeout. -/
theorem claim_C1_witness :
    (0 < 11 ∧
      run_fiskta (.completed (-((11 : Nat) : Int))) =
        { crashed := true, timed_out := false, exit_code := 128 + ((11 : Nat) : Int),
          signal_num := some 11 }) ∧
    ((0 : Int) ≤ 7 ∧
      run_fiskta (.completed 7) =
        { crashed := false, timed_out := false, exit_code := 7,
          signal_num := none }) :=
  ⟨⟨by decide, claim_C1_run_fiskta_classification.1 11 (by decide)⟩,
   ⟨by decide, claim_C1_run_fiskta_classification.2.1 7 (by decide)⟩⟩

/-- C2: given a token list that reproduces the reference failing result, the
minimizer output reproduces the same failure class (under same_failure) and
has at most as many tokens; and same_failure holds exactly by the priority
order: both timed out, else both crashed, else identical exit codes. -/
theorem claim_C2_minimizer_same_failure (execF : List String → TestResult)
    (want : TestResult) (toks : List String)
    (h : same_failure want (execF toks) = true) :
    same_failure want (execF (minimize_tokens execF want toks)) = true ∧
    (minimize_tokens execF want toks).length ≤ toks.length ∧
    ∀ a b : TestResult, same_failure a b = true ↔
      ((a.timed_out = true ∧ b.timed_out = true) ∨
       (a.crashed = true ∧ b.crashed = true) ∨
       a.exit_code = b.exit_code) := by
  refine ⟨minimizeAux_pres execF want toks 0 h,
    (minimizeAux_sublist execF want toks 0).length_le, ?_⟩
  intro a b
  cases hat : a.timed_out <;> cases hbt : b.timed_out <;>
    cases hac : a.crashed <;> cases hbc : b.crashed <;>
      simp [same_failure, hat, hbt, hac, hbc]

/-- Witness for C2: a two-token list whose executions all report exit 9. -/
theorem claim_C2_witness :
    same_failure { crashed := false, timed_out := false, exit_code := 9, signal_num := none }
      ((fun _ => ({ crashed := false, timed_out := false, exit_code := 9,
                    signal_num := none } : TestResult)) ["find", "x"]) = true ∧
    (same_failure { crashed := false, timed_out := false, exit_code := 9, signal_num := none }
      ((fun _ => ({ crashed := false, timed_out := false, exit_code := 9,
                    signal_num := none } : TestResult))
        (minimize_tokens (fun _ => { crashed := false, timed_out := false, exit_code := 9, signal_num := none })
          { crashed := false, timed_out := false, exit_code := 9, signal_num := none }
          ["find", "x"])) = true ∧
     (minimize_tokens (fun _ => { crashed := false, timed_out := false, exit_code := 9, signal_num := none })
        { crashed := false, timed_out := false, exit_code := 9, signal_num := none }
        ["find", "x"]).length ≤ (["find", "x"] : List String).length ∧
     ∀ a b : TestResult, same_failure a b = true ↔
        ((a.timed_out = true ∧ b.timed_out = true) ∨
         (a.crashed = true ∧ b.crashed = true) ∨
         a.exit_code = b.exit_code)) :=
  ⟨by decide,
   claim_C2_minimizer_same_failure
     (fun _ => { crashed := false, timed_out := false, exit_code := 9, signal_num := none })
     { crashed := false, timed_out := false, exit_code := 9, signal_num := none }
     ["find", "x"] (by decide)⟩

/-- C3: case ids `worker_id + iteration * worker_count` are injective over
pairs (worker index, iteration) with the index below the worker count, hence
unique within a run directory. -/
theorem claim_C3_case_id_unique (w i k i2 k2 : Nat) (hw : 1 ≤ w)
    (hi : i < w) (hi2 : i2 < w)
    (h : case_id i w k = case_id i2 w k2) : i = i2 ∧ k = k2 := by
  simp only [case_id] at h
  have hmod : i = i2 := by
    have h1 : (i + k * w) % w = (i2 + k2 * w) % w := by rw [h]
    rwa [Nat.add_mul_mod_self_right, Nat.add_mul_mod_self_right,
      Nat.mod_eq_of_lt hi, Nat.mod_eq_of_lt hi2] at h1
  subst hmod
  refine ⟨rfl, ?_⟩
  have hk : k * w = k2 * w := by omega
  exact Nat.eq_of_mul_eq_mul_right (by omega) hk

/-- Witness for C3 with two workers. -/
theorem claim_C3_witness :
    1 ≤ 2 ∧ 1 < 2 ∧ case_id 1 2 5 = case_id 1 2 5 ∧ (1 = 1 ∧ 5 = 5) :=
  ⟨by decide, by decide, rfl, claim_C3_case_id_unique 2 1 5 1 5 (by decide)
    (by decide) (by decide) rfl⟩

/-- C6: when the execution result carries the reserved parse-error exit code
12, worker_fn saves the program unminimized — the minimizer is not invoked,
whatever the minimize flag. -/
theorem claim_C6_parse_error_unminimized (execF : List String → TestResult)
    (minimizeFlag : Bool) (res : TestResult) (ops : List String)
    (h : res.exit_code = 12) :
    worker_final_ops execF minimizeFlag res ops = ops := by
  simp [worker_final_ops, h]

/-- Witness for C6 at a concrete parse-error result. -/
theorem claim_C6_witness :
    (({ crashed := false, timed_out := false, exit_code := 12,
        signal_num := none } : TestResult)).exit_code = 12 ∧
    worker_final_ops (fun _ => { crashed := false, timed_out := false, exit_code := 0, signal_num := none })
      true { crashed := false, timed_out := false, exit_code := 12, signal_num := none }
      ["find", "x"] = ["find", "x"] :=
  ⟨rfl, claim_C6_parse_error_unminimized
    (fun _ => { crashed := false, timed_out := false, exit_code := 0, signal_num := none })
    true _ ["find", "x"] rfl⟩

/-- C10: on a non-empty token list the minimizer returns a non-empty
subsequence of its input: it only deletes tokens, never inserts, replaces or
reorders, and never reaches the empty program. -/
theorem claim_C10_minimizer_subsequence (execF : List String → TestResult)
    (want : TestResult) (toks : List String) (h : toks ≠ []) :
    minimize_tokens execF want toks ≠ [] ∧
    (minimize_tokens execF want toks).Sublist toks :=
  ⟨minimizeAux_ne_nil execF want toks 0 h, minimizeAux_sublist execF want toks 0⟩

/-- Witness for C10 on a concrete three-token list. -/
theorem claim_C10_witness :
    (["skip", "5b", "x"] : List String) ≠ [] ∧
    (minimize_tokens (fun _ => { crashed := true, timed_out := false, exit_code := 139, signal_num := some 11 })
       { crashed := true, timed_out := false, exit_code := 139, signal_num := some 11 }
       ["skip", "5b", "x"] ≠ [] ∧
     (minimize_tokens (fun _ => { crashed := true, timed_out := false, exit_code := 139, signal_num := some 11 })
       { crashed := true, timed_out := false, exit_code := 139, signal_num := some 11 }
       ["skip", "5b", "x"]).Sublist ["skip", "5b", "x"]) :=
  ⟨by decide,
   claim_C10_minimizer_subsequence
     (fun _ => { crashed := true, timed_out := false, exit_code := 139, signal_num := some 11 })
     { crashed := true, timed_out := false, exit_code := 139, signal_num := some 11 }
     ["skip", "5b", "x"] (by decide)⟩

/-! ## Helper lemmas for the ops-file round trip -/

theorem asString_data (s : String) : s.data.asString = s := by
  cases s
  rfl

theorem splitNl_no_nl (t : List Char) (h : '\n' ∉ t) : splitNl t = [t] := by
  induction t with
  | nil => rfl
  | cons c rest ih =>
    have hc : c ≠ '\n' := fun e => h (e ▸ List.mem_cons_self c rest)
    have hr : '\n' ∉ rest := fun m => h (List.mem_cons_of_mem c m)
    simp [splitNl, ih hr, hc]

theorem splitNl_ne_nil (s : List Char) : splitNl s ≠ [] := by
  cases s with
  | nil => simp [splitNl]
  | cons c rest =>
    simp only [splitNl]
    rcases h : splitNl rest with _ | ⟨g, gs⟩
    · simp
    · by_cases hc : c = '\n' <;> simp [hc]

theorem splitNl_append (t s : List Char) (h : '\n' ∉ t) :
    splitNl (t ++ '\n' :: s) = t :: splitNl s := by
  induction t with
  | nil =>
    rcases List.exists_cons_of_ne_nil (splitNl_ne_nil s) with ⟨g, gs, hgs⟩
    simp [splitNl, hgs]
  | cons c t2 ih =>
    have hc : c ≠ '\n' := fun e => h (e ▸ List.mem_cons_self c t2)
    have ht2 : '\n' ∉ t2 := fun m => h (List.mem_cons_of_mem c m)
    simp [splitNl, ih ht2, hc]

theorem splitNl_joinNl (ls : List (List Char)) (hne : ls ≠ [])
    (h : ∀ l ∈ ls, '\n' ∉ l) : splitNl (joinNl ls) = ls := by
  induction ls with
  | nil => cases hne rfl
  | cons t ts ih =>
    cases ts with
    | nil => exact splitNl_no_nl t (h t (by simp))
    | cons t2 ts2 =>
      have hj : joinNl (t :: t2 :: ts2) = t ++ '\n' :: joinNl (t2 :: ts2) := rfl
      rw [hj, splitNl_append t _ (h t (by simp)),
        ih (by simp) (fun l hl => h l (List.mem_cons_of_mem _ hl))]

theorem not_mem_joinNl (ls : List (List Char)) (c : Char) (hc : c ≠ '\n')
    (h : ∀ l ∈ ls, c ∉ l) : c ∉ joinNl ls := by
  induction ls with
  | nil => simp [joinNl]
  | cons t ts ih =>
    cases ts with
    | nil => simpa [joinNl] using h t (by simp)
    | cons t2 ts2 =>
      have hj : joinNl (t :: t2 :: ts2) = t ++ '\n' :: joinNl (t2 :: ts2) := rfl
      rw [hj]
      intro hmem
      rcases List.mem_append.mp hmem with h1 | h2
      · exact h t (by simp) h1
      · rcases List.mem_cons.mp h2 with h3 | h3
        · exact hc h3
        · exact ih (fun l hl => h l (List.mem_cons_of_mem _ hl)) h3

theorem pyUnivNl_no_cr (s : List Char) (h : '\r' ∉ s) : pyUnivNl s = s := by
  induction s with
  | nil => rfl
  | cons c rest ih =>
    have hc : c ≠ '\r' := fun e => h (e ▸ List.mem_cons_self c rest)
    have hr : '\r' ∉ rest := fun m => h (List.mem_cons_of_mem c m)
    rw [pyUnivNl.eq_def]
    simp only []
    rw [if_neg hc, ih hr]

/-- C7 counterexample: the claim fails as stated.  save_case writes the token
list `["", "x"]` (mutation type 8 produces empty tokens) as the text
`"\nx"`; repro_case strips it to `"x"` and reads back the one-token list
`["x"]`, which is not the saved token sequence. -/
theorem claim_C7_counterexample :
    load_ops (save_ops ["", "x"]) = ["x"] ∧
    (["", "x"] : List String) ≠ ["x"] := by
  constructor
  · decide
  · decide

/-- C7 (amended): the persisted input bytes always round-trip exactly, and
the ops artifact reads back as exactly the saved token sequence provided no
token contains a newline or carriage return and the newline-joined text is
unchanged by strip (it neither starts nor ends with whitespace).  Without
those conditions the read-back sequence can differ, as the counterexample
shows. -/
theorem claim_C7_roundtrip (toks : List String) (hne : toks ≠ [])
    (hnl : ∀ t ∈ toks, '\n' ∉ t.data)
    (hcr : ∀ t ∈ toks, '\r' ∉ t.data)
    (hstrip : pyStrip (save_ops toks) = save_ops toks) :
    load_ops (save_ops toks) = toks ∧
    ∀ b : List Nat, load_input (save_input b) = b := by
  constructor
  · have hcrj : '\r' ∉ joinNl (toks.map String.data) := by
      apply not_mem_joinNl
      · decide
      · intro l hl
        rcases List.mem_map.mp hl with ⟨t, ht, rfl⟩
        exact hcr t ht
    simp only [load_ops, save_ops] at hstrip ⊢
    rw [pyUnivNl_no_cr _ hcrj, hstrip, splitNl_joinNl]
    · rw [List.map_map]
      have : (List.asString ∘ String.data) = id := by
        funext s
        exact asString_data s
      rw [this, List.map_id]
    · simpa using hne
    · intro l hl
      rcases List.mem_map.mp hl with ⟨t, ht, rfl⟩
      exact hnl t ht
  · intro b
    rfl

/-- Witness for the amended C7 at a concrete two-token program. -/
theorem claim_C7_witness :
    ((["find", "abc"] : List String) ≠ [] ∧
      (∀ t ∈ (["find", "abc"] : List String), '\n' ∉ t.data) ∧
      (∀ t ∈ (["find", "abc"] : List String), '\r' ∉ t.data) ∧
      pyStrip (save_ops ["find", "abc"]) = save_ops ["find", "abc"]) ∧
    (load_ops (save_ops ["find", "abc"]) = ["find", "abc"] ∧
      ∀ b : List Nat, load_input (save_input b) = b) :=
  ⟨⟨by decide, by decide, by decide, by decide⟩,
   claim_C7_roundtrip ["find", "abc"] (by decide) (by decide) (by decide)
     (by decide)⟩

/-! ## Helper lemmas for corpus splicing -/

theorem getD_mem {α : Type} (l : List α) (n : Nat) (d : α) (hd : d ∈ l) :
    l.getD n d ∈ l := by
  by_cases h : n < l.length
  · rw [List.getD_eq_getElem l d h]
    exact List.getElem_mem h
  · rw [List.getD_eq_default l d (by omega)]
    exact hd

theorem mutate_splice_spec (corpus : List (List Nat)) (data : List Nat)
    (r : Rng) (hc : ∀ b ∈ corpus, b.length ≤ 200) :
    ∃ out r2, mutate_splice corpus data r = some (out, r2) ∧
      out.length ≤ data.length + 200 := by
  unfold mutate_splice
  by_cases h : corpus.length < 2
  · rw [if_pos h]
    exact ⟨data, r, rfl, by omega⟩
  · rw [if_neg h]
    match corpus, h with
    | a :: rest, h =>
      simp only [choiceO, Option.bind_eq_bind, Option.some_bind]
      refine ⟨_, _, rfl, ?_⟩
      have hmem : (a :: rest).getD ((draw r).1 % (a :: rest).length) a ∈ a :: rest :=
        getD_mem _ _ _ (List.mem_cons_self a rest)
      have hlen := hc _ hmem
      simp only [List.length_append, List.length_take, List.length_drop]
      omega

theorem iter_splice_spec (corpus : List (List Nat))
    (hc : ∀ b ∈ corpus, b.length ≤ 200) :
    ∀ (n : Nat) (data : List Nat) (r : Rng),
      ∃ out r2, iter_splice corpus n data r = some (out, r2) ∧
        out.length ≤ data.length + 200 * n := by
  intro n
  induction n with
  | zero => exact fun data r => ⟨data, r, rfl, by omega⟩
  | succ m ih =>
    intro data r
    obtain ⟨mid, r1, heq, hlen⟩ := mutate_splice_spec corpus data r hc
    obtain ⟨out, r2, heq2, hlen2⟩ := ih mid r1
    refine ⟨out, r2, ?_, by omega⟩
    simp [iter_splice, heq, heq2]

/-- C8 counterexample: with the two-file corpus (100 and 200 bytes) there is
a random stream under which 50 successive splices starting from the 100-byte
file end at 500 bytes, above the claimed 300-byte bound: mutate_splice can
cut the current data at its full length and append a whole corpus entry, so
iterated splicing grows. -/
theorem claim_C8_counterexample :
    (iter_splice corpusC 50 (List.replicate 100 0) rngC).map
        (fun p => p.1.length) = some 500 ∧
    ¬ (500 ≤ 300) := by
  constructor
  · set_option maxRecDepth 1000000 in decide
  · decide

/-- C8 (amended): one splice never adds more than the largest corpus entry
(200 bytes here), so starting from either corpus file `n` splices yield at
most `len(start) + 200·n` bytes — 10 100 from the 100-byte file after 50
splices — and the 300-byte bound of the original claim holds only for a
single splice from the 100-byte file. -/
theorem claim_C8_splice_growth (corpus : List (List Nat)) (n : Nat)
    (data : List Nat) (r : Rng) (hc : ∀ b ∈ corpus, b.length ≤ 200) :
    ∃ out r2, iter_splice corpus n data r = some (out, r2) ∧
      out.length ≤ data.length + 200 * n :=
  iter_splice_spec corpus hc n data r

/-- Witness for the amended C8 on the Scenario-3 corpus. -/
theorem claim_C8_witness :
    (∀ b ∈ corpusC, b.length ≤ 200) ∧
    ∃ out r2, iter_splice corpusC 50 (List.replicate 100 0) rngC =
        some (out, r2) ∧
      out.length ≤ (List.replicate (100 : Nat) (0 : Nat)).length + 200 * 50 :=
 by
  have hcor : ∀ b ∈ corpusC, b.length ≤ 200 := by
    intro b hb
    simp only [corpusC, List.mem_cons, List.not_mem_nil, or_false] at hb
    rcases hb with rfl | rfl <;> rw [List.length_replicate] <;> omega
  exact ⟨hcor, claim_C8_splice_growth corpusC 50 (List.replicate 100 0) rngC hcor⟩

/-! ## Helper lemmas for the program generator -/

theorem sep_draw_cases (r : Rng) :
    (sep_draw r).1 = [] ∨ (sep_draw r).1 = ["THEN"] ∨
    (sep_draw r).1 = ["OR"] ∨ (sep_draw r).1 = ["AND"] := by
  unfold sep_draw bern draw randintT
  dsimp only
  split_ifs <;> simp

theorem gen_ops_flat_chunks : ∀ (n : Nat) (r : Rng),
    ∃ chunks : List (List String × List String),
      (gen_ops_flat n r).1 = (chunks.map (fun c => c.1 ++ c.2)).flatten ∧
      chunks.length = n ∧
      ∀ c ∈ chunks, (∃ r2 : Rng, c.1 = (gen_random_op r2).1) ∧
        (c.2 = [] ∨ c.2 = ["THEN"] ∨ c.2 = ["OR"] ∨ c.2 = ["AND"]) := by
  intro n
  induction n using Nat.strong_induction_on with
  | _ n ih =>
    match n with
    | 0 =>
      intro r
      exact ⟨[], by simp [gen_ops_flat], rfl, by simp⟩
    | 1 =>
      intro r
      refine ⟨[((gen_random_op r).1, [])], ?_, rfl, ?_⟩
      · simp [gen_ops_flat]
      · intro c hc
        simp only [List.mem_singleton] at hc
        subst hc
        exact ⟨⟨r, rfl⟩, Or.inl rfl⟩
    | m + 2 =>
      intro r
      obtain ⟨chunks, h1, h2, h3⟩ :=
        ih (m + 1) (by omega) ((sep_draw (gen_random_op r).2).2)
      refine ⟨((gen_random_op r).1, (sep_draw (gen_random_op r).2).1) :: chunks,
        ?_, by simp [h2], ?_⟩
      · have hstep : (gen_ops_flat (m + 2) r).1 =
            (gen_random_op r).1 ++ (sep_draw (gen_random_op r).2).1 ++
            (gen_ops_flat (m + 1) ((sep_draw (gen_random_op r).2).2)).1 := rfl
        rw [hstep, h1]
        simp [List.append_assoc]
      · intro c hc
        rcases List.mem_cons.mp hc with h4 | h4
        · subst h4
          exact ⟨⟨r, rfl⟩, sep_draw_cases _⟩
        · exact h3 c h4

/-- C9: every Program built by gen_random_program with `min_ops ≤ max_ops`
is the concatenation of `n` operation groups, each the token list of one
gen_random_op output followed by at most one clause separator, with
`min_ops ≤ n ≤ max_ops`: the separators leave the operation-group count
unchanged. -/
theorem claim_C9_op_count_in_range (min_ops max_ops : Nat)
    (h : min_ops ≤ max_ops) (r : Rng) :
    ∃ chunks : List (List String × List String),
      (gen_random_program min_ops max_ops r).1 =
        (chunks.map (fun c => c.1 ++ c.2)).flatten ∧
      min_ops ≤ chunks.length ∧ chunks.length ≤ max_ops ∧
      ∀ c ∈ chunks, (∃ r2 : Rng, c.1 = (gen_random_op r2).1) ∧
        (c.2 = [] ∨ c.2 = ["THEN"] ∨ c.2 = ["OR"] ∨ c.2 = ["AND"]) := by
  obtain ⟨chunks, h1, h2, h3⟩ := gen_ops_flat_chunks
    (randintT min_ops max_ops r).1 (randintT min_ops max_ops r).2
  have hval : (randintT min_ops max_ops r).1 =
      min_ops + (draw r).1 % (max_ops + 1 - min_ops) := rfl
  have hmod : (draw r).1 % (max_ops + 1 - min_ops) < max_ops + 1 - min_ops :=
    Nat.mod_lt _ (by omega)
  exact ⟨chunks, h1, by omega, by omega, h3⟩

/-- Witness for C9 with bounds 1..2. -/
theorem claim_C9_witness :
    1 ≤ 2 ∧
    ∃ chunks : List (List String × List String),
      (gen_random_program 1 2 rng0).1 =
        (chunks.map (fun c => c.1 ++ c.2)).flatten ∧
      1 ≤ chunks.length ∧ chunks.length ≤ 2 ∧
      ∀ c ∈ chunks, (∃ r2 : Rng, c.1 = (gen_random_op r2).1) ∧
        (c.2 = [] ∨ c.2 = ["THEN"] ∨ c.2 = ["OR"] ∨ c.2 = ["AND"]) :=
  ⟨by decide, claim_C9_op_count_in_range 1 2 (by decide) rng0⟩

/-- C4 counterexample: the claim fails for both mutation paths of worker_fn.
Structural path: under the concrete streams rngA and rngB, gen_random_program
3 3 emits the three-group program `skip 5b skip 5b skip 5b`, and
mutate_program draws one mutation of type 4 (delete a random token) which
removes the first `skip`, leaving 2 operation keywords < min_ops = 3.
Targeted-mismatch path: under rngD, gen_random_program 2 2 emits
`print until skip 5b`, where `until` is the string argument of print
(rand_string_token can spell any lowercase word); mismatch variant 1 scans
for a left neighbour in [find, find:re, until, until:re] by raw token
equality, fires on that argument, and overwrites the next token — the
operation keyword `skip` — with a 5000-character pattern, leaving 1
operation keyword < min_ops = 2.  opCount over-approximates the
operation-group count, so both programs have fewer groups than min_ops. -/
theorem claim_C4_counterexample :
    ((gen_random_program 3 3 rngA).1 =
      ["skip", "5b", "skip", "5b", "skip", "5b"] ∧
     (mutate_program (gen_random_program 3 3 rngA).1 rngB).map
       (fun p => opCount p.1) = some 2 ∧
     2 < 3) ∧
    ((gen_random_program 2 2 rngD).1 = ["print", "until", "skip", "5b"] ∧
     opCount (mutate_for_input_mismatch
       (gen_random_program 2 2 rngD).1 [] rngE).1 = 1 ∧
     1 < 2) := by
  refine ⟨⟨?_, ?_, by decide⟩, ⟨?_, ?_, by decide⟩⟩
  · set_option maxRecDepth 10000 in decide
  · set_option maxRecDepth 10000 in decide
  · set_option maxRecDepth 10000 in decide
  · set_option maxRecDepth 100000 in decide

/-- C4 (amended): only the pure-generation path guarantees the invariant:
a Program coming straight from gen_random_program consists of at least
`min_ops` operation groups, each one gen_random_op output followed by at
most one clause separator (when `min_ops ≤ max_ops`); the structural
mutation path can delete operation tokens and the targeted-mismatch path
can overwrite an operation keyword when a string argument collides with a
scanned keyword, so both mutation paths can hand the harness a program with
fewer groups, as the counterexample shows. -/
theorem claim_C4_generated_min_ops (min_ops max_ops : Nat)
    (h : min_ops ≤ max_ops) (r : Rng) :
    ∃ chunks : List (List String × List String),
      (gen_random_program min_ops max_ops r).1 =
        (chunks.map (fun c => c.1 ++ c.2)).flatten ∧
      min_ops ≤ chunks.length ∧
      ∀ c ∈ chunks, (∃ r2 : Rng, c.1 = (gen_random_op r2).1) ∧
        (c.2 = [] ∨ c.2 = ["THEN"] ∨ c.2 = ["OR"] ∨ c.2 = ["AND"]) := by
  obtain ⟨chunks, h1, h2, h3⟩ := gen_ops_flat_chunks
    (randintT min_ops max_ops r).1 (randintT min_ops max_ops r).2
  have hval : (randintT min_ops max_ops r).1 =
      min_ops + (draw r).1 % (max_ops + 1 - min_ops) := rfl
  exact ⟨chunks, h1, by omega, h3⟩

/-- Witness for the amended C4 with bounds 3..3. -/
theorem claim_C4_witness :
    3 ≤ 3 ∧
    ∃ chunks : List (List String × List String),
      (gen_random_program 3 3 rngA).1 =
        (chunks.map (fun c => c.1 ++ c.2)).flatten ∧
      3 ≤ chunks.length ∧
      ∀ c ∈ chunks, (∃ r2 : Rng, c.1 = (gen_random_op r2).1) ∧
        (c.2 = [] ∨ c.2 = ["THEN"] ∨ c.2 = ["OR"] ∨ c.2 = ["AND"]) :=
  ⟨by decide, claim_C4_generated_min_ops 3 3 (by decide) rngA⟩

theorem randChunk_some : ∀ (n : Nat) (r : Rng),
    ∃ out rest, randChunk n r = some (out, rest) := by
  intro n
  induction n with
  | zero => exact fun r => ⟨[], r, rfl⟩
  | succ m ih =>
    intro r
    obtain ⟨out, r2, hout⟩ := ih ((draw r).2)
    refine ⟨(draw r).1 % 256 :: out, r2, ?_⟩
    have h256 : randrangeO 256 r = some ((draw r).1 % 256, (draw r).2) := rfl
    simp [randChunk, h256, hout]

/-- C5: every mutator given an input too short for its precondition returns
it unchanged without raising: each of the 13 program-mutation branches is the
identity (and returns `some`, i.e. raises nothing) on token lists shorter
than its guard threshold, and the byte-level mutators with length or corpus
preconditions (bit flip, byte flip, byte delete, chunk delete, splice with
fewer than 2 corpus entries, chunk repeat) return their input unchanged when
the precondition is unmet; the insert mutators have no length precondition
and never raise on any input. -/
theorem claim_C5_mutator_noop :
    (∀ (t : Nat) (ops : List String) (r : Rng),
      ops.length < mutationMinLen t → apply_mutation t ops r = some (ops, r)) ∧
    (∀ r : Rng, mutate_bit_flip [] r = some ([], r)) ∧
    (∀ r : Rng, mutate_byte_flip [] r = some ([], r)) ∧
    (∀ (d : List Nat) (r : Rng), d.length ≤ 1 →
      mutate_byte_delete d r = some (d, r)) ∧
    (∀ (d : List Nat) (r : Rng), d.length ≤ 1 →
      mutate_chunk_delete d r = some (d, r)) ∧
    (∀ (corpus : List (List Nat)) (d : List Nat) (r : Rng),
      corpus.length < 2 → mutate_splice corpus d r = some (d, r)) ∧
    (∀ r : Rng, mutate_repeat [] r = some ([], r)) ∧
    (∀ (d : List Nat) (r : Rng), ∃ out, mutate_byte_insert d r = some out) ∧
    (∀ (d : List Nat) (r : Rng), ∃ out, mutate_chunk_insert d r = some out) := by
  refine ⟨?_, fun r => rfl, fun r => rfl, ?_, ?_, ?_, fun r => rfl, ?_, ?_⟩
  · intro t ops r h
    rcases t with _|_|_|_|_|_|_|_|_|_|_|_|_|_|t <;>
      first
        | rfl
        | (have hnil : ops = [] := List.length_eq_zero.mp (by
            simp only [mutationMinLen] at h
            omega)
           subst hnil
           rfl)
        | (simp only [apply_mutation]
           rw [if_neg (by simp only [mutationMinLen] at h; omega)])
  · intro d r h
    simp only [mutate_byte_delete]
    rw [if_pos h]
  · intro d r h
    simp only [mutate_chunk_delete]
    rw [if_pos h]
  · intro corpus d r h
    simp only [mutate_splice]
    rw [if_pos h]
  · intro d r
    exact ⟨_, rfl⟩
  · intro d r
    obtain ⟨chunk, r2, hchunk⟩ :=
      randChunk_some ((randintT 1 17 r).1) ((randintT 1 17 r).2)
    refine ⟨(d.take ((randintT 0 d.length r2).1) ++ chunk ++
      d.drop ((randintT 0 d.length r2).1), (randintT 0 d.length r2).2), ?_⟩
    simp [mutate_chunk_insert, hchunk]

/-- Witness for C5: type-4 deletion on a singleton program, byte delete on a
one-byte input, splice with a one-entry corpus. -/
theorem claim_C5_witness :
    ((["a"] : List String).length < mutationMinLen 4 ∧
      apply_mutation 4 ["a"] rng0 = some (["a"], rng0)) ∧
    ((([5] : List Nat)).length ≤ 1 ∧
      mutate_byte_delete [5] rng0 = some ([5], rng0)) ∧
    ((([[1]] : List (List Nat))).length < 2 ∧
      mutate_splice [[1]] [7] rng0 = some ([7], rng0)) :=
  ⟨⟨by decide, claim_C5_mutator_noop.1 4 ["a"] rng0 (by decide)⟩,
   ⟨by decide, claim_C5_mutator_noop.2.2.2.1 [5] rng0 (by decide)⟩,
   ⟨by decide, claim_C5_mutator_noop.2.2.2.2.2.1 [[1]] [7] rng0 (by decide)⟩⟩
